import Mathlib

/-!
Verification of the graypy GELF handler (graypy/handler.py, Python 2).

Byte strings of the source are modelled as `List Nat`, one element per byte.
Calls to `struct.pack` are modelled by explicit byte-list constructions, and
the value drawn by `random.randint` inside `ChunkedGELF.__init__` is passed
as an explicit parameter `r`, so every definition is a pure function of its
inputs.
-/

/-- Model of `struct.pack('>H', n)`: the two big-endian bytes of `n`.  Exact
for `n < 65536`; the Python call raises `struct.error` outside that range,
a case no claim exercises. -/
def pack_be16 (n : Nat) : List Nat := [n / 256 % 256, n % 256]

/-- Model of `struct.pack('Q', n)` on the reference platform (native byte
order, 8-byte unsigned): the eight little-endian bytes of `n`. -/
def pack_le64 (n : Nat) : List Nat :=
  [n % 256, n / 256 % 256, n / 256 ^ 2 % 256, n / 256 ^ 3 % 256,
   n / 256 ^ 4 % 256, n / 256 ^ 5 % 256, n / 256 ^ 6 % 256, n / 256 ^ 7 % 256]

/-- Fuel-indexed model of Python `range(start, stop, step)` for a positive
step, the only shape used by the source (`range(0, len(message), self.size)`).
Python raises `ValueError` for `step = 0`; the model returns `[]` then, a
case no claim exercises.  A fuel of at least `stop - start` completes the
enumeration when `0 < step`. -/
def pyRangeFuel (stop step : Nat) : Nat → Nat → List Nat
  | 0, _ => []
  | fuel + 1, start =>
      if start < stop ∧ 0 < step then start :: pyRangeFuel stop step fuel (start + step)
      else []

/-- Model of `range(0, stop, step)`: fuel `stop` always suffices. -/
def pyRange0 (stop step : Nat) : List Nat := pyRangeFuel stop step stop 0

/-- State of a `ChunkedGELF` instance after `__init__` (handler.py lines
80-84): `self.message`, `self.size`,
`self.pieces = struct.pack('>H', (len(message) / size) + 1)` (Python 2
integer division) and `self.id = struct.pack('Q', random.randint(...)) * 4`. -/
structure ChunkedGELF where
  message : List Nat
  size : Nat
  pieces : List Nat
  id : List Nat
deriving DecidableEq

/-- Model of `ChunkedGELF.__init__(message, size)`; `r` is the value drawn by
`random.randint(0, 0xFFFFFFFFFFFFFFFF)`, and `* 4` on a Python byte string is
fourfold concatenation. -/
def ChunkedGELF.init (message : List Nat) (size : Nat) (r : Nat) : ChunkedGELF :=
  { message := message
    size := size
    pieces := pack_be16 (message.length / size + 1)
    id := pack_le64 r ++ pack_le64 r ++ pack_le64 r ++ pack_le64 r }

/-- Model of `ChunkedGELF.message_chunks` (handler.py lines 86-88): the
slices `message[i:i+size]` for `i in range(0, len(message), size)`. -/
def ChunkedGELF.message_chunks (c : ChunkedGELF) : List (List Nat) :=
  (pyRange0 c.message.length c.size).map (fun i => (c.message.drop i).take c.size)

/-- Model of `ChunkedGELF.encode(sequence, chunk)` (handler.py lines 90-97):
the join of the magic bytes `'\x1e\x0f'`, the stored id, the packed sequence
number, the stored pieces field, and the chunk payload. -/
def ChunkedGELF.encode (c : ChunkedGELF) (sequence : Nat) (chunk : List Nat) : List Nat :=
  [0x1e, 0x0f] ++ c.id ++ pack_be16 sequence ++ c.pieces ++ chunk

/-- The full output of one pass over `ChunkedGELF.__iter__` (handler.py lines
99-101): `self.encode(sequence, chunk)` for
`sequence, chunk in enumerate(self.message_chunks())`. -/
def chunkerIter (c : ChunkedGELF) : List (List Nat) :=
  c.message_chunks.enum.map (fun p => c.encode p.1 p.2)

/-- Step-by-step model of the generator returned by `ChunkedGELF.__iter__`,
with the generator-local state explicit: the next sequence number `seq` and
the byte offset `off` of the next slice.  The instance `c` itself is read
but never written by the generator.  A fuel of at least `c.message.length`
completes the iteration when `0 < c.size`. -/
def genRun (c : ChunkedGELF) : Nat → Nat → Nat → List (List Nat)
  | 0, _, _ => []
  | fuel + 1, seq, off =>
      if off < c.message.length then
        c.encode seq ((c.message.drop off).take c.size) :: genRun c fuel (seq + 1) (off + c.size)
      else []

/-- One complete iteration of the chunk generator, started fresh from the
instance, exactly as each call to `__iter__` starts a fresh generator. -/
def ChunkedGELF.iterOnce (c : ChunkedGELF) (fuel : Nat) : List (List Nat) :=
  genRun c fuel 0 0

/-- Preset chunk size `WAN_CHUNK` (handler.py line 11). -/
def WAN_CHUNK : Nat := 1420

/-- Preset chunk size `LAN_CHUNK` (handler.py line 11). -/
def LAN_CHUNK : Nat := 8154

/-- The filter set built in `GELFHandler.__init__` (handler.py lines 22-25);
the source literal lists `'msecs'` twice, which a set collapses and which is
equally harmless for list membership. -/
def skipList : List String :=
  ["args", "asctime", "created", "exc_info", "exc_text",
   "filename", "funcName", "id", "levelname", "levelno", "lineno",
   "module", "msecs", "msecs", "message", "msg", "name", "pathname",
   "process", "processName", "relativeCreated", "thread", "threadName"]

/-- State of a `GELFHandler` instance after `__init__` (handler.py lines
15-26). -/
structure GELFHandler where
  chunk_size : Nat
  skip_list : List String
deriving DecidableEq

/-- Model of `GELFHandler.__init__(host, port, chunk_size)`: the chunk size
is stored unchecked, the skip set is built, and `host` and `port` are handed
to `DatagramHandler.__init__`, which stores them without validation. -/
def GELFHandler.init (host : String) (port : Nat) (chunk_size : Nat) : GELFHandler :=
  { chunk_size := chunk_size, skip_list := skipList }

/-- Model of `GELFHandler.send(s)` (handler.py lines 28-33): the list of
datagram payloads passed to `DatagramHandler.send`, in dispatch order.  `r`
is the random draw made inside `ChunkedGELF.__init__` when chunking
happens. -/
def GELFHandler.send (h : GELFHandler) (r : Nat) (s : List Nat) : List (List Nat) :=
  if s.length < h.chunk_size then [s]
  else chunkerIter (ChunkedGELF.init s h.chunk_size r)

/-- GELF field values, with enough structure for the claims: strings,
integers and integer tuples.  The float `record.created` is carried opaquely
as whatever `GVal` the record holds. -/
inductive GVal where
  | str : String → GVal
  | int : Int → GVal
  | tup : List Int → GVal
deriving DecidableEq

/-- The message dictionary, as an association list of writes. -/
abbrev Dict := List (String × GVal)

/-- Key lookup in the message dictionary: the latest assignment to a key
wins, matching Python dict lookup over the write history. -/
def dget : Dict → String → Option GVal
  | [], _ => none
  | (a, b) :: d, k =>
      match dget d k with
      | some v => some v
      | none => if k = a then some b else none

/-- Python dict assignment `d[k] = v`, modelled by appending the binding to
the write history; together with the latest-binding-wins lookup `dget` this
is observationally the assignment semantics (a later write to the same key
overwrites an earlier one). -/
def dinsert (d : Dict) (k : String) (v : GVal) : Dict := d ++ [(k, v)]

/-- A Python exception as far as `traceback` formatting is concerned: the
exception type name, the formatted stack-frame lines, and the message. -/
structure PyExcInfo where
  typeName : String
  frames : String
  message : String
deriving DecidableEq

/-- Model of CPython 2 `''.join(traceback.format_exception(etype, value,
tb))` applied to the interpreter state `sys.exc_info()`: the string
`"None\n"` when no exception is being handled, otherwise the traceback
header, the formatted frames, and the closing `Type: message` line. -/
def format_exception_model : Option PyExcInfo → String
  | none => "None\n"
  | some e =>
      "Traceback (most recent call last):\n" ++ e.frames ++ e.typeName ++ ": " ++ e.message ++ "\n"

/-- Model of CPython 2 `traceback.format_exc(limit)`: it formats the
interpreter's currently handled exception (`sys.exc_info()`), and its only
parameter is a frame-count limit — never an exception to format.  A tuple
passed as `limit` does not even truncate, because `n < limit` is always true
for an int against a tuple in Python 2. -/
def format_exc (current : Option PyExcInfo) (limit : Option PyExcInfo) : String :=
  format_exception_model current

/-- Model of `GELFHandler.get_full_message(exc_info)` (handler.py lines
48-49): `traceback.format_exc(exc_info) if exc_info else ''`.  `current` is
the interpreter's currently handled exception, the hidden input read by
`format_exc`. -/
def get_full_message (current : Option PyExcInfo) (exc_info : Option PyExcInfo) : String :=
  match exc_info with
  | some e => format_exc current (some e)
  | none => ""

/-- Model of `GELFHandler.convert_level_to_syslog` (handler.py lines 39-46);
`logging.CRITICAL`, `ERROR`, `WARNING`, `INFO`, `DEBUG` are the constants
50, 40, 30, 20, 10, and `.get(level, level)` falls back to the key itself. -/
def convert_level_to_syslog (level : Int) : Int :=
  if level = 50 then 2
  else if level = 40 then 3
  else if level = 30 then 4
  else if level = 20 then 6
  else if level = 10 then 7
  else level

/-- The parts of a `logging.LogRecord` read by `make_message_dict`.  `dict`
is `record.__dict__`, the full attribute map the promotion loop iterates;
`processName` is optional because the source guards it with `hasattr`. -/
structure LogRecord where
  message : String
  exc_info : Option PyExcInfo
  created : GVal
  levelno : Int
  name : String
  pathname : String
  lineno : Int
  funcName : String
  process : Int
  threadName : String
  processName : Option GVal
  dict : List (String × GVal)
deriving DecidableEq

/-- The check `key[0] == '_'` of handler.py line 73 (attribute names are
never empty). -/
def keyStartsUnderscore (k : String) : Bool := k.data.head? == some '_'

/-- One step of the extra-field promotion loop (handler.py lines 71-74):
`if not key in self.skip_list and not key[0] == '_':
d['_' + key] = record.__dict__[key]`. -/
def promoteStep (d : Dict) (kv : String × GVal) : Dict :=
  if kv.1 ∉ skipList ∧ keyStartsUnderscore kv.1 = false then dinsert d ("_" ++ kv.1) kv.2
  else d

/-- The fixed-field dict literal of `make_message_dict` (handler.py lines
52-65), in source order. -/
def baseDict (host : String) (cur : Option PyExcInfo) (r : LogRecord) : Dict :=
  [("version", GVal.str "1.0"),
   ("host", GVal.str host),
   ("short_message", GVal.str r.message),
   ("full_message", GVal.str (get_full_message cur r.exc_info)),
   ("timestamp", r.created),
   ("level", GVal.int (convert_level_to_syslog r.levelno)),
   ("facility", GVal.str r.name),
   ("file", GVal.str r.pathname),
   ("line", GVal.int r.lineno),
   ("_function", GVal.str r.funcName),
   ("_pid", GVal.int r.process),
   ("_thread_name", GVal.str r.threadName)]

/-- The dict after the conditional `_process_name` assignment (handler.py
lines 66-68). -/
def baseDictP (host : String) (cur : Option PyExcInfo) (r : LogRecord) : Dict :=
  match r.processName with
  | some v => dinsert (baseDict host cur r) "_process_name" v
  | none => baseDict host cur r

/-- Model of `GELFHandler.make_message_dict(record)` (handler.py lines
51-76); `host` is the result of `socket.gethostname()` and `cur` the
interpreter's current exception, read through `get_full_message`. -/
def make_message_dict (host : String) (cur : Option PyExcInfo) (r : LogRecord) : Dict :=
  r.dict.foldl promoteStep (baseDictP host cur r)

/-- Every key the fixed-field part of `make_message_dict` can write. -/
def fixedKeys : List String :=
  ["version", "host", "short_message", "full_message", "timestamp", "level",
   "facility", "file", "line", "_function", "_pid", "_thread_name", "_process_name"]

/-- Whether the second character of a string is an underscore. -/
def sndIsUnderscore (s : String) : Bool :=
  match s.data with
  | _ :: c :: _ => c == '_'
  | _ => false

/-- Record for the worked example of the promotion rules: attributes
`foo = "bar"`, `args = (1, 2)`, `_internal = 5`. -/
def recExample : LogRecord :=
  { message := "disk full", exc_info := none, created := GVal.int 0, levelno := 40,
    name := "svc.storage", pathname := "/app/storage.py", lineno := 42,
    funcName := "caller", process := 100, threadName := "main", processName := none,
    dict := [("foo", GVal.str "bar"), ("args", GVal.tup [1, 2]), ("_internal", GVal.int 5)] }

/-- Record carrying a `pid` attribute that collides with the fixed `_pid`
field written from `record.process`. -/
def recOverwrite : LogRecord :=
  { message := "m", exc_info := none, created := GVal.int 0, levelno := 20,
    name := "n", pathname := "p", lineno := 1,
    funcName := "f", process := 100, threadName := "t", processName := none,
    dict := [("pid", GVal.int 999)] }

/-- Sample exception value for the `get_full_message` evaluations. -/
def sampleExc : PyExcInfo :=
  { typeName := "ValueError", frames := "  File \"app.py\", line 1, in f\n", message := "boom" }

/-! Bridging lemmas between the fuel-indexed range model and `List.range'`. -/

theorem pieceCeil_succ (stop step start : Nat) (hstep : 0 < step) (hlt : start < stop) :
    (stop - start + step - 1) / step = (stop - (start + step) + step - 1) / step + 1 := by
  rcases Nat.lt_or_ge stop (start + step) with hcl | hge
  · have e0 : stop - start + step - 1 = (stop - start - 1) + step := by omega
    have e1 : (stop - start - 1) / step = 0 := Nat.div_eq_of_lt (by omega)
    have e2 : (stop - (start + step) + step - 1) / step = 0 := Nat.div_eq_of_lt (by omega)
    rw [e0, Nat.add_div_right _ hstep, e1, e2]
  · have e0 : stop - start + step - 1 = (stop - (start + step) + step - 1) + step := by omega
    rw [e0, Nat.add_div_right _ hstep]

theorem pyRangeFuel_eq_range' (stop step : Nat) (hstep : 0 < step) :
    ∀ fuel start, stop - start ≤ fuel →
      pyRangeFuel stop step fuel start = List.range' start ((stop - start + step - 1) / step) step := by
  intro fuel
  induction fuel with
  | zero =>
      intro start h
      have h0 : (stop - start + step - 1) / step = 0 := Nat.div_eq_of_lt (by omega)
      rw [h0, pyRangeFuel]
      rfl
  | succ fuel ih =>
      intro start h
      by_cases hlt : start < stop
      · rw [pyRangeFuel, if_pos ⟨hlt, hstep⟩, ih (start + step) (by omega),
          pieceCeil_succ stop step start hstep hlt, List.range'_succ]
      · have h0 : (stop - start + step - 1) / step = 0 := Nat.div_eq_of_lt (by omega)
        rw [h0, pyRangeFuel, if_neg (fun hc => hlt hc.1)]
        rfl

theorem pyRange0_eq_range' (stop step : Nat) (hstep : 0 < step) :
    pyRange0 stop step = List.range' 0 ((stop + step - 1) / step) step := by
  rw [pyRange0, pyRangeFuel_eq_range' stop step hstep stop 0 (by omega), Nat.sub_zero]

theorem message_chunks_init (m : List Nat) (s r : Nat) :
    (ChunkedGELF.init m s r).message_chunks
      = (pyRange0 m.length s).map (fun i => (m.drop i).take s) := rfl

theorem join_slices (m : List Nat) (s : Nat) (hs : 0 < s) :
    ∀ fuel start, m.length - start ≤ fuel →
      ((pyRangeFuel m.length s fuel start).map (fun i => (m.drop i).take s)).flatten
        = m.drop start := by
  intro fuel
  induction fuel with
  | zero =>
      intro start h
      rw [pyRangeFuel]
      exact (List.drop_eq_nil_of_le (by omega)).symm
  | succ fuel ih =>
      intro start h
      by_cases hlt : start < m.length
      · rw [pyRangeFuel, if_pos ⟨hlt, hs⟩, List.map_cons, List.flatten_cons,
          ih (start + s) (by omega)]
        have hdd : m.drop (start + s) = (m.drop start).drop s := (List.drop_drop s start m).symm
        rw [hdd, List.take_append_drop]
      · rw [pyRangeFuel, if_neg (fun hc => hlt hc.1)]
        exact (List.drop_eq_nil_of_le (by omega)).symm

/-- C2: for a payload of length `L` and chunk size `S` with `L > S`, the
Chunker cuts the payload into exactly `ceil(L / S) = (L + S - 1) / S`
slices, the slice with sequence index `i` is `message[i*size : i*size+size]`
(the last may be shorter), concatenating the slices in ascending sequence
order reproduces the payload byte-for-byte, and iterating the Chunker emits
one encoded chunk per slice, in that order. -/
theorem chunker_chunks_spec (m : List Nat) (s r : Nat) (hs : 0 < s) (hL : s < m.length) :
    ((ChunkedGELF.init m s r).message_chunks).length = (m.length + s - 1) / s
  ∧ (∀ i, ∀ hi : i < ((ChunkedGELF.init m s r).message_chunks).length,
      ((ChunkedGELF.init m s r).message_chunks).get ⟨i, hi⟩ = (m.drop (i * s)).take s)
  ∧ ((ChunkedGELF.init m s r).message_chunks).flatten = m
  ∧ chunkerIter (ChunkedGELF.init m s r)
      = ((ChunkedGELF.init m s r).message_chunks).enum.map
          (fun p => (ChunkedGELF.init m s r).encode p.1 p.2)
  ∧ (chunkerIter (ChunkedGELF.init m s r)).length = (m.length + s - 1) / s := by
  have hlen : ((ChunkedGELF.init m s r).message_chunks).length = (m.length + s - 1) / s := by
    rw [message_chunks_init, pyRange0_eq_range' _ _ hs, List.length_map, List.length_range']
  refine ⟨hlen, ?_, ?_, rfl, ?_⟩
  · intro i hi
    rw [List.get_eq_getElem]
    simp only [message_chunks_init, pyRange0_eq_range' _ _ hs] at hi ⊢
    rw [List.getElem_map, List.getElem_range']
    rw [Nat.zero_add, Nat.mul_comm]
  · rw [message_chunks_init, pyRange0]
    exact join_slices m s hs m.length 0 (by omega)
  · rw [chunkerIter, List.length_map, List.enum_length, hlen]

/-- Witness for `chunker_chunks_spec` at the 5-byte payload `[1, 2, 3, 4, 5]`
with chunk size 2. -/
theorem chunker_chunks_spec_witness :
    ((ChunkedGELF.init [1, 2, 3, 4, 5] 2 7).message_chunks).length = 3
  ∧ ((ChunkedGELF.init [1, 2, 3, 4, 5] 2 7).message_chunks).flatten = [1, 2, 3, 4, 5] := by
  have h := chunker_chunks_spec [1, 2, 3, 4, 5] 2 7 (by decide) (by decide)
  exact ⟨by rw [h.1]; rfl, h.2.2.1⟩

/-- C1 (failing evaluation): the total-piece count stored by
`ChunkedGELF.__init__` is `struct.pack('>H', (len(message) / size) + 1)`,
that is `floor(L / S) + 1`, which differs from `ceil(L / S)` whenever `S`
divides `L`.  For the 4-byte message `[1, 2, 3, 4]` with chunk size 2 the
header field advertises 3 pieces while the chunker itself produces
`ceil(4 / 2) = 2` chunks. -/
theorem pieces_header_vs_chunk_count :
    (ChunkedGELF.init [1, 2, 3, 4] 2 0).pieces = pack_be16 3
  ∧ ((ChunkedGELF.init [1, 2, 3, 4] 2 0).message_chunks).length = 2
  ∧ (chunkerIter (ChunkedGELF.init [1, 2, 3, 4] 2 0)).length = 2
  ∧ (4 + 2 - 1) / 2 = 2 := by decide

/-- C6: `convert_level_to_syslog` maps the framework constants
CRITICAL = 50, ERROR = 40, WARNING = 30, INFO = 20, DEBUG = 10 to the syslog
severities 2, 3, 4, 6, 7, and returns every other value unchanged. -/
theorem convert_level_spec :
    (convert_level_to_syslog 50 = 2 ∧ convert_level_to_syslog 40 = 3
      ∧ convert_level_to_syslog 30 = 4 ∧ convert_level_to_syslog 20 = 6
      ∧ convert_level_to_syslog 10 = 7)
  ∧ ∀ v : Int, v ≠ 50 → v ≠ 40 → v ≠ 30 → v ≠ 20 → v ≠ 10 →
      convert_level_to_syslog v = v := by
  refine ⟨by decide, ?_⟩
  intro v h50 h40 h30 h20 h10
  simp [convert_level_to_syslog, h50, h40, h30, h20, h10]

/-- Witness for `convert_level_spec` at the non-standard level 33. -/
theorem convert_level_spec_witness : convert_level_to_syslog 33 = 33 :=
  convert_level_spec.2 33 (by decide) (by decide) (by decide) (by decide) (by decide)

/-- C8 counterexample: constructing a handler with the non-positive chunk
size 0 succeeds and stores the value verbatim — no check runs and no
configuration error is reported at construction time. -/
theorem chunk_size_zero_accepted :
    (GELFHandler.init "localhost" 12201 0).chunk_size = 0
  ∧ GELFHandler.init "localhost" 12201 0 = { chunk_size := 0, skip_list := skipList } :=
  ⟨rfl, rfl⟩

/-- C8 amended: `GELFHandler.__init__` performs no validation of the
configured chunk size; every value, non-positive ones included, is accepted
and stored unchanged, and the only other construction effect is storing the
fixed skip set. -/
theorem gelf_handler_no_validation (host : String) (port chunk_size : Nat) :
    (GELFHandler.init host port chunk_size).chunk_size = chunk_size
  ∧ (GELFHandler.init host port chunk_size).skip_list = skipList :=
  ⟨rfl, rfl⟩

/-- C3: `send` dispatches the raw payload as a single datagram when its
length is strictly below the configured chunk size, and otherwise dispatches
exactly the chunks a fresh `ChunkedGELF` over the payload produces, one
datagram per chunk, in ascending sequence order. -/
theorem send_dispatch (h : GELFHandler) (r : Nat) (s : List Nat) :
    (s.length < h.chunk_size → h.send r s = [s])
  ∧ (h.chunk_size ≤ s.length →
      h.send r s = chunkerIter (ChunkedGELF.init s h.chunk_size r)
      ∧ h.send r s
          = ((ChunkedGELF.init s h.chunk_size r).message_chunks).enum.map
              (fun p => (ChunkedGELF.init s h.chunk_size r).encode p.1 p.2)) := by
  constructor
  · intro hlt
    rw [GELFHandler.send, if_pos hlt]
  · intro hge
    have hnl : ¬ s.length < h.chunk_size := by omega
    exact ⟨by rw [GELFHandler.send, if_neg hnl], by rw [GELFHandler.send, if_neg hnl]; rfl⟩

/-- Witness for `send_dispatch`: with chunk size 4, the 2-byte payload goes
out as one raw datagram and the 6-byte payload goes out as the Chunker's
encoded chunks. -/
theorem send_dispatch_witness :
    (GELFHandler.init "localhost" 12201 4).send 0 [9, 9] = [[9, 9]]
  ∧ (GELFHandler.init "localhost" 12201 4).send 0 [1, 2, 3, 4, 5, 6]
      = chunkerIter
          (ChunkedGELF.init [1, 2, 3, 4, 5, 6] (GELFHandler.init "localhost" 12201 4).chunk_size 0) :=
  ⟨(send_dispatch (GELFHandler.init "localhost" 12201 4) 0 [9, 9]).1 (by decide),
   ((send_dispatch (GELFHandler.init "localhost" 12201 4) 0 [1, 2, 3, 4, 5, 6]).2 (by decide)).1⟩

theorem init_id_length (m : List Nat) (s r : Nat) :
    (ChunkedGELF.init m s r).id.length = 32 := rfl

theorem encode_field_id (c : ChunkedGELF) (hlen : c.id.length = 32) (seq : Nat)
    (chunk : List Nat) : ((c.encode seq chunk).drop 2).take 32 = c.id := by
  rw [ChunkedGELF.encode, List.append_assoc, List.append_assoc, List.append_assoc,
    List.drop_left' (show ([0x1e, 0x0f] : List Nat).length = 2 from rfl), List.take_left' hlen]

/-- C4: `encode` emits, in order, the magic bytes `0x1E 0x0F`, the 32-byte
message id — the 8 bytes of the random 64-bit draw repeated four times,
fixed at construction — the sequence number as a 2-byte big-endian integer,
the stored 2-byte big-endian piece-count field, and the raw chunk payload;
and every chunk the iterator emits carries those same id bytes at offsets
2 through 33. -/
theorem encode_layout (m : List Nat) (s r seq : Nat) (chunk : List Nat) :
    (ChunkedGELF.init m s r).encode seq chunk
      = [0x1e, 0x0f] ++ (pack_le64 r ++ pack_le64 r ++ pack_le64 r ++ pack_le64 r)
          ++ pack_be16 seq ++ pack_be16 (m.length / s + 1) ++ chunk
  ∧ (ChunkedGELF.init m s r).id.length = 32
  ∧ (∀ d, d ∈ chunkerIter (ChunkedGELF.init m s r) →
      (d.drop 2).take 32 = (ChunkedGELF.init m s r).id) := by
  refine ⟨rfl, rfl, ?_⟩
  intro d hd
  simp only [chunkerIter] at hd
  rcases List.mem_map.1 hd with ⟨p, hp, hpe⟩
  rw [← hpe]
  exact encode_field_id (ChunkedGELF.init m s r) rfl p.1 p.2

/-- Witness for `encode_layout`: the first emitted chunk of a concrete
Chunker carries the instance id at offsets 2 through 33. -/
theorem encode_layout_witness :
    (((ChunkedGELF.init [1, 2, 3] 2 5).encode 0 [1, 2]).drop 2).take 32
      = (ChunkedGELF.init [1, 2, 3] 2 5).id :=
  (encode_layout [1, 2, 3] 2 5 0 [1, 2]).2.2 _ (by decide)

theorem genRun_eq_enumFrom (c : ChunkedGELF) (hs : 0 < c.size) :
    ∀ fuel seq off,
      genRun c fuel seq off
        = (((pyRangeFuel c.message.length c.size fuel off).map
              (fun i => (c.message.drop i).take c.size)).enumFrom seq).map
            (fun p => c.encode p.1 p.2) := by
  intro fuel
  induction fuel with
  | zero => intro seq off; rfl
  | succ fuel ih =>
      intro seq off
      by_cases hlt : off < c.message.length
      · rw [genRun, if_pos hlt, pyRangeFuel, if_pos ⟨hlt, hs⟩, List.map_cons,
          List.enumFrom_cons, List.map_cons, ih (seq + 1) (off + c.size)]
      · rw [genRun, if_neg hlt, pyRangeFuel, if_neg (fun hc => hlt hc.1)]
        rfl

/-- C9: a complete iteration of the chunk generator is a pure function of
the instance fields; running the generator twice (any two sufficient fuels,
i.e. two fresh `__iter__` calls) yields identical chunk-byte sequences, and
each run equals the declarative chunk list. -/
theorem chunker_reiteration (c : ChunkedGELF) (f1 f2 : Nat) (hs : 0 < c.size)
    (h1 : c.message.length ≤ f1) (h2 : c.message.length ≤ f2) :
    c.iterOnce f1 = chunkerIter c ∧ c.iterOnce f1 = c.iterOnce f2 := by
  have key : ∀ f, c.message.length ≤ f → c.iterOnce f = chunkerIter c := by
    intro f hf
    rw [ChunkedGELF.iterOnce, genRun_eq_enumFrom c hs f 0 0,
      pyRangeFuel_eq_range' _ _ hs f 0 (by omega), chunkerIter,
      ChunkedGELF.message_chunks, pyRange0,
      pyRangeFuel_eq_range' _ _ hs c.message.length 0 (by omega), List.enum_eq_enumFrom]
  exact ⟨key f1 h1, by rw [key f1 h1, key f2 h2]⟩

/-- Witness for `chunker_reiteration` at a concrete 5-byte Chunker and two
different fuels. -/
theorem chunker_reiteration_witness :
    (ChunkedGELF.init [1, 2, 3, 4, 5] 2 3).iterOnce 5
        = chunkerIter (ChunkedGELF.init [1, 2, 3, 4, 5] 2 3)
  ∧ (ChunkedGELF.init [1, 2, 3, 4, 5] 2 3).iterOnce 5
        = (ChunkedGELF.init [1, 2, 3, 4, 5] 2 3).iterOnce 9 :=
  chunker_reiteration (ChunkedGELF.init [1, 2, 3, 4, 5] 2 3) 5 9 (by decide) (by decide)
    (by decide)

/-- C7 (failing evaluation): `get_full_message` hands its `exc_info`
argument to `traceback.format_exc` as the frame-count limit, so the result
is the formatted text of the interpreter's current exception, whatever
`exc_info` was passed.  With no exception currently being handled the
function returns `"None\n"` — not the stack trace of the given exception
info and containing no exception type name — while the empty-string branch
for absent exception info behaves as specified. -/
theorem get_full_message_eval :
    get_full_message none (some sampleExc) = "None\n"
  ∧ format_exception_model (some sampleExc)
      = "Traceback (most recent call last):\n  File \"app.py\", line 1, in f\nValueError: boom\n"
  ∧ (∀ cur : Option PyExcInfo, get_full_message cur none = "")
  ∧ (∀ cur : Option PyExcInfo, ∀ e : PyExcInfo,
      get_full_message cur (some e) = format_exception_model cur) :=
  ⟨rfl, rfl, fun _ => rfl, fun _ _ => rfl⟩

/-! Association-list lemmas for the message-dictionary model. -/

theorem dget_append_single (d : Dict) (k kx : String) (v : GVal) :
    dget (d ++ [(kx, v)]) k = if k = kx then some v else dget d k := by
  induction d with
  | nil =>
      by_cases h : k = kx
      · simp [dget, h]
      · simp [dget, h]
  | cons a d ih =>
      rcases a with ⟨a1, a2⟩
      rw [List.cons_append, dget, ih]
      by_cases h : k = kx
      · rw [if_pos h, if_pos h]
      · rw [if_neg h, if_neg h]
        rfl

theorem fold_untouched (l : List (String × GVal)) (key : String) :
    ∀ d : Dict,
      (∀ kv, kv ∈ l → kv.1 ∉ skipList ∧ keyStartsUnderscore kv.1 = false →
        ("_" ++ kv.1) ≠ key) →
      dget (l.foldl promoteStep d) key = dget d key := by
  induction l with
  | nil => intro d _; rfl
  | cons a l ih =>
      intro d hall
      rw [List.foldl_cons, ih _ (fun kv hkv => hall kv (List.mem_cons_of_mem a hkv))]
      by_cases hp : a.1 ∉ skipList ∧ keyStartsUnderscore a.1 = false
      · rw [promoteStep, if_pos hp, dinsert, dget_append_single,
          if_neg (Ne.symm (hall a (List.mem_cons_self a l) hp))]
      · rw [promoteStep, if_neg hp]

theorem data_underscore_append (k : String) : ("_" ++ k).data = '_' :: k.data := by
  rw [String.data_append]
  rfl

theorem underscore_append_inj {a b : String} (h : "_" ++ a = "_" ++ b) : a = b := by
  have h2 : '_' :: a.data = '_' :: b.data := by
    rw [← data_underscore_append, ← data_underscore_append, h]
  exact String.ext (List.cons_injective h2)

theorem fold_hit (l : List (String × GVal)) :
    ∀ (d : Dict) (k : String) (v : GVal), (l.map Prod.fst).Nodup → (k, v) ∈ l →
      k ∉ skipList → keyStartsUnderscore k = false →
      dget (l.foldl promoteStep d) ("_" ++ k) = some v := by
  induction l with
  | nil => intro d k v _ hmem _ _; cases hmem
  | cons a l ih =>
      intro d k v hnd hmem hskip hund
      rw [List.map_cons, List.nodup_cons] at hnd
      rcases List.mem_cons.1 hmem with heq | hmem2
      · rw [List.foldl_cons, ← heq]
        rw [show promoteStep d (k, v) = dinsert d ("_" ++ k) v from if_pos ⟨hskip, hund⟩]
        rw [fold_untouched l ("_" ++ k) _ ?hside]
        · rw [dinsert, dget_append_single, if_pos rfl]
        case hside =>
          intro kv hkv hpass hcontra
          apply hnd.1
          have hk : kv.1 = k := underscore_append_inj hcontra
          have ha1 : a.1 = k := by rw [← heq]
          rw [ha1, ← hk]
          exact List.mem_map.2 ⟨kv, hkv, rfl⟩
      · rw [List.foldl_cons]
        exact ih (promoteStep d a) k v hnd.2 hmem2 hskip hund

theorem dget_baseP_none (host : String) (cur : Option PyExcInfo) (r : LogRecord)
    (key : String) (h : key ∉ fixedKeys) : dget (baseDictP host cur r) key = none := by
  simp only [fixedKeys, List.mem_cons, List.not_mem_nil, or_false, not_or] at h
  obtain ⟨h1, h2, h3, h4, h5, h6, h7, h8, h9, h10, h11, h12, h13⟩ := h
  cases hp : r.processName with
  | none =>
      simp [baseDictP, hp, baseDict, dget, h1, h2, h3, h4, h5, h6, h7, h8, h9, h10, h11, h12]
  | some v =>
      rw [show baseDictP host cur r = dinsert (baseDict host cur r) "_process_name" v by
        rw [baseDictP, hp]]
      rw [dinsert, dget_append_single, if_neg h13]
      simp [baseDict, dget, h1, h2, h3, h4, h5, h6, h7, h8, h9, h10, h11, h12]

theorem skip_not_fixed : ∀ k, k ∈ skipList → ("_" ++ k) ∉ fixedKeys := by decide

theorem fixed_snd_not_underscore : ∀ key, key ∈ fixedKeys → sndIsUnderscore key = false := by
  decide

theorem underscore_head_not_fixed (k : String) (hk : keyStartsUnderscore k = true) :
    ("_" ++ k) ∉ fixedKeys := by
  intro hmem
  have hfix := fixed_snd_not_underscore _ hmem
  rw [keyStartsUnderscore] at hk
  cases hd : k.data with
  | nil => rw [hd] at hk; cases hk
  | cons c t =>
      rw [hd] at hk
      have hc : c = '_' := by simpa using hk
      have hsnd : sndIsUnderscore ("_" ++ k) = true := by
        simp [sndIsUnderscore, data_underscore_append, hd, hc]
      rw [hsnd] at hfix
      cases hfix

/-- C5: the dictionary built by `make_message_dict` carries the promoted
extra field `_name` with the attribute's value exactly for the record
attributes whose name is neither in the skip set nor already
underscore-prefixed; no skip-listed name is ever promoted (the key `_name`
stays absent for those), and no underscore-prefixed name produces any
promoted key. -/
theorem make_message_dict_promotion (host : String) (cur : Option PyExcInfo) (r : LogRecord)
    (hnd : (r.dict.map Prod.fst).Nodup) :
    (∀ k v, (k, v) ∈ r.dict → k ∉ skipList → keyStartsUnderscore k = false →
      dget (make_message_dict host cur r) ("_" ++ k) = some v)
  ∧ (∀ k, k ∈ skipList → dget (make_message_dict host cur r) ("_" ++ k) = none)
  ∧ (∀ k, keyStartsUnderscore k = true →
      dget (make_message_dict host cur r) ("_" ++ k) = none) := by
  refine ⟨?_, ?_, ?_⟩
  · intro k v hmem hskip hund
    exact fold_hit r.dict (baseDictP host cur r) k v hnd hmem hskip hund
  · intro k hk
    rw [make_message_dict, fold_untouched r.dict ("_" ++ k) _ ?hb]
    · exact dget_baseP_none host cur r _ (skip_not_fixed k hk)
    case hb =>
      intro kv hkv hpass hcontra
      exact hpass.1 (by rw [underscore_append_inj hcontra]; exact hk)
  · intro k hk
    rw [make_message_dict, fold_untouched r.dict ("_" ++ k) _ ?hc]
    · exact dget_baseP_none host cur r _ (underscore_head_not_fixed k hk)
    case hc =>
      intro kv hkv hpass hcontra
      rw [underscore_append_inj hcontra, hk] at hpass
      cases hpass.2

/-- Witness for `make_message_dict_promotion` at the worked example
`{foo: "bar", args: (1, 2), _internal: 5}`: `_foo` is promoted, `_args`
stays absent, and nothing is promoted for `_internal`. -/
theorem make_message_dict_promotion_witness :
    dget (make_message_dict "myhost" none recExample) ("_" ++ "foo") = some (GVal.str "bar")
  ∧ dget (make_message_dict "myhost" none recExample) ("_" ++ "args") = none
  ∧ dget (make_message_dict "myhost" none recExample) ("_" ++ "_internal") = none := by
  have h := make_message_dict_promotion "myhost" none recExample (by decide)
  exact ⟨h.1 "foo" (GVal.str "bar") (by decide) (by decide) (by decide),
    h.2.1 "args" (by decide), h.2.2 "_internal" (by decide)⟩

/-- C10: the promotion loop runs after the fixed fields are written and
assigns `_name` without any collision check, so a record attribute named
`function`, `pid`, `thread_name` or `process_name` — none of which is
skip-listed — overwrites the corresponding framework-fixed underscore
field with the attribute's value. -/
theorem make_message_dict_fixed_overwrite (host : String) (cur : Option PyExcInfo)
    (r : LogRecord) (hnd : (r.dict.map Prod.fst).Nodup) :
    (∀ v, ("function", v) ∈ r.dict →
      dget (make_message_dict host cur r) "_function" = some v)
  ∧ (∀ v, ("pid", v) ∈ r.dict → dget (make_message_dict host cur r) "_pid" = some v)
  ∧ (∀ v, ("thread_name", v) ∈ r.dict →
      dget (make_message_dict host cur r) "_thread_name" = some v)
  ∧ (∀ v, ("process_name", v) ∈ r.dict →
      dget (make_message_dict host cur r) "_process_name" = some v) := by
  refine ⟨?_, ?_, ?_, ?_⟩
  · intro v hmem
    rw [show ("_function" : String) = "_" ++ "function" from rfl]
    exact fold_hit r.dict (baseDictP host cur r) "function" v hnd hmem (by decide) (by decide)
  · intro v hmem
    rw [show ("_pid" : String) = "_" ++ "pid" from rfl]
    exact fold_hit r.dict (baseDictP host cur r) "pid" v hnd hmem (by decide) (by decide)
  · intro v hmem
    rw [show ("_thread_name" : String) = "_" ++ "thread_name" from rfl]
    exact fold_hit r.dict (baseDictP host cur r) "thread_name" v hnd hmem (by decide)
      (by decide)
  · intro v hmem
    rw [show ("_process_name" : String) = "_" ++ "process_name" from rfl]
    exact fold_hit r.dict (baseDictP host cur r) "process_name" v hnd hmem (by decide)
      (by decide)

/-- Witness for `make_message_dict_fixed_overwrite`: a record attribute
`pid = 999` makes `_pid` equal 999 even though the record's process id is
100. -/
theorem make_message_dict_fixed_overwrite_witness :
    dget (make_message_dict "myhost" none recOverwrite) "_pid" = some (GVal.int 999)
  ∧ recOverwrite.process = 100 := by
  have h := make_message_dict_fixed_overwrite "myhost" none recOverwrite (by decide)
  exact ⟨h.2.1 (GVal.int 999) (by decide), rfl⟩
